import Mathlib

/-
Verification of the shared core of the SpSparse/IBMisc library:
a shallow embedding of src/slib/spsparse/spsparse.hpp and
src/slib/ibmisc/ibmisc.hpp, together with models of the parts that
the headers declare but whose definitions live in translation units
not present here (the sort-order constants, the consolidate algorithm
and the dense-destination merge).

Numeric values of the C++ value type (an IEEE floating-point type such
as double) are embedded as integers extended with a NaN element.  The
embedding keeps the IEEE comparison semantics the code relies on:
NaN compares unequal to everything (including itself), and isnan is
true exactly on NaN.  Infinities and negative zero play no role in any
claim considered here, so the integer carrier suffices.
-/

/-- A numeric value of the value type: either NaN or an ordinary number. -/
inductive FVal where
  | nan : FVal
  | num : Int → FVal
deriving DecidableEq, Repr

namespace FVal

/-- The std::isnan predicate on the embedded value type. -/
def isnan : FVal → Bool
  | nan => true
  | num _ => false

/-- IEEE equality comparison: NaN is unequal to everything. -/
def feq : FVal → FVal → Bool
  | num a, num b => a = b
  | _, _ => false

/-- IEEE addition restricted to the embedded carrier: NaN is absorbing. -/
def add : FVal → FVal → FVal
  | num a, num b => num (a + b)
  | _, _ => nan

end FVal

namespace spsparse

/-- What to do in algorithms when duplicate entries are encountered
(src/slib/spsparse/spsparse.hpp lines 44-45). -/
inductive DuplicatePolicy where
  | LEAVE_ALONE
  | ADD
  | REPLACE
  | REPLACE_THEN_ADD
deriving DecidableEq, Repr

/-- The exception thrown by the default SpSparse error handler
(src/slib/spsparse/spsparse.hpp lines 48-57).  The C++ class has no
data members, which the fieldless structure mirrors. -/
structure Exception where

/-- The what() member of spsparse::Exception: a fixed string for every
instance. -/
def Exception.what (_e : Exception) : String := "spsparse::Exception()"

/-- The isnone helper (src/slib/spsparse/spsparse.hpp lines 112-120):
the expression std::isnan(n) || (n == 0) when zero_nan holds, and
n == 0 otherwise. -/
def isnone (n : FVal) (zero_nan : Bool) : Bool :=
  if zero_nan then n.isnan || n.feq (FVal.num 0) else n.feq (FVal.num 0)

/-- The call isnone(n) with the zero_nan argument omitted: the C++
declaration supplies the default argument false. -/
def isnoneDefault (n : FVal) : Bool := isnone n false

/-- Modelled from the spec: the header only declares
extern const std::array of int, 2, named ROW_MAJOR; its defining
translation unit is not under src.  The spec gives its value as the
row-major dimension permutation, comparing dimension 0 first. -/
def ROW_MAJOR : List Int := [0, 1]

/-- Modelled from the spec: the header only declares
extern const std::array of int, 2, named COL_MAJOR; its defining
translation unit is not under src.  The spec gives its value as the
column-major dimension permutation, comparing dimension 1 first. -/
def COL_MAJOR : List Int := [1, 0]

/-- Reading one entry of a rank-2 dimension permutation. -/
def permAt (l : List Int) (i : Fin 2) : Int := l.getD i.val 0

/-- A coordinate record: an index tuple paired with one value. -/
abbrev CooRec := List Int × FVal

/-- Lexicographic comparison of index tuples, first dimension first
(the canonical default sort order of the spec). -/
def coordLE : List Int → List Int → Bool
  | [], [] => true
  | [], _ :: _ => true
  | _ :: _, [] => false
  | a :: as, b :: bs => if a < b then true else if b < a then false else coordLE as bs

/-- Insert a record into a coordinate-sorted list, before any record
with an equal tuple (so that sorting is stable). -/
def insertRec (r : CooRec) : List CooRec → List CooRec
  | [] => [r]
  | s :: rest => if coordLE r.1 s.1 then r :: s :: rest else s :: insertRec r rest

/-- Stable insertion sort of records by coordinate tuple. -/
def sortRecs : List CooRec → List CooRec
  | [] => []
  | r :: rest => insertRec r (sortRecs rest)

/-- Group adjacent records sharing an identical coordinate tuple:
each group is the tuple, the first-encountered value, and the later
duplicate values in encounter order. -/
def groupDups : List CooRec → List (List Int × FVal × List FVal)
  | [] => []
  | (c, v) :: rest =>
    match groupDups rest with
    | [] => [(c, v, [])]
    | (c2, v2, vs) :: gs =>
      if c = c2 then (c, v, v2 :: vs) :: gs else (c, v, []) :: (c2, v2, vs) :: gs

/-- Sum of a list of values, accumulated with IEEE addition. -/
def sumF : List FVal → FVal
  | [] => FVal.num 0
  | v :: rest => FVal.add v (sumF rest)

/-- Modelled from the spec: how consolidate combines the values of one
group of duplicate records (first-encountered value v, later duplicates
rest).  LEAVE_ALONE keeps the first value, ADD sums them all, REPLACE
keeps the last.  REPLACE_THEN_ADD never reaches this point because
consolidate rejects it for sparse destinations. -/
def combineDup (policy : DuplicatePolicy) (v : FVal) (rest : List FVal) : FVal :=
  match policy with
  | .LEAVE_ALONE => v
  | .ADD => rest.foldl FVal.add v
  | .REPLACE => rest.getLastD v
  | .REPLACE_THEN_ADD => v

/-- Modelled from the spec: the consolidate algorithm, whose definition
is not under src (the header only references spsparse::consolidate in
documentation).  It sorts the records by the canonical first-to-last
dimension order, merges records sharing an identical coordinate tuple
per the duplicate policy, optionally drops records classified as none,
and fails fast (none) when REPLACE_THEN_ADD is requested against the
sparse destination. -/
def consolidate (policy : DuplicatePolicy) (zero_nan : Bool) (eliminate_none : Bool)
    (A : List CooRec) : Option (List CooRec) :=
  match policy with
  | .REPLACE_THEN_ADD => none
  | p =>
    let merged := (groupDups (sortRecs A)).map (fun g => (g.1, combineDup p g.2.1 g.2.2))
    some (if eliminate_none then merged.filter (fun r => !(isnone r.2 zero_nan)) else merged)

/-- Modelled from the spec: merging one incoming value into a cell of a
dense destination under a duplicate policy; the dense-accumulation code
path is not under src.  Under REPLACE_THEN_ADD, if the existing
destination value is none per the value classifier with zero_nan, the
incoming value replaces it, otherwise it is added. -/
def denseMerge (policy : DuplicatePolicy) (zero_nan : Bool)
    (existing incoming : FVal) : FVal :=
  match policy with
  | .LEAVE_ALONE => existing
  | .ADD => FVal.add existing incoming
  | .REPLACE => incoming
  | .REPLACE_THEN_ADD =>
    if isnone existing zero_nan then incoming else FVal.add existing incoming

end spsparse

namespace ibmisc

/-- The exception thrown by the default IBMisc error handler
(src/slib/ibmisc/ibmisc.hpp lines 20-29).  The C++ class has no data
members, which the fieldless structure mirrors. -/
structure Exception where

/-- The what() member of ibmisc::Exception: a fixed string for every
instance. -/
def Exception.what (_e : Exception) : String := "ibmisc::Exception()"

end ibmisc

/-
The stream helper (src/slib/spsparse/spsparse.hpp lines 130-146).  The
array argument is embedded as a partial map from indices to the string
the element prints as (none marking an unreadable element); the return
value is the text written to the stream (the C++ function returns the
stream itself unchanged otherwise).  The for loop carries a fuel
parameter: a run that exhausts every fuel bound models the loop never
reaching its exit condition k == RANK.
-/

/-- The body of the for loop of stream: print a[k], increment k, exit
when k == RANK, otherwise print a separator and continue. -/
def streamLoop (a : Nat → Option String) (RANK : Int) : Nat → Nat → Option String
  | 0, _ => none
  | fuel + 1, k =>
    match a k with
    | none => none
    | some s =>
      if ((k + 1 : Nat) : Int) = RANK then some s
      else (streamLoop a RANK fuel (k + 1)).map (fun rest => s ++ ", " ++ rest)

/-- The stream function: for RANK == 0 it writes a brace pair and reads
nothing; otherwise it writes an opening brace, runs the loop from k = 0,
and closes the brace. -/
def stream (a : Nat → Option String) (RANK : Int) (fuel : Nat) : Option String :=
  if RANK = 0 then some "\x7b\x7d"
  else (streamLoop a RANK fuel 0).map (fun body => "\x7b" ++ body ++ "\x7d")

/-- Strings joined by the separator stream writes between elements. -/
def sepList : List String → String
  | [] => ""
  | [s] => s
  | s :: s2 :: rest => s ++ ", " ++ sepList (s2 :: rest)

section Claims

open spsparse

/-- C1: for every numeric value n, isnone(n, true) returns true if and
only if n is NaN or n equals zero; in particular isnone(NaN, true) is
true and isnone(5.0, true) is false. -/
theorem isnone_zero_nan_true_iff :
    (forall n : FVal, isnone n true = true ↔ (n.isnan = true ∨ n = FVal.num 0))
    ∧ isnone FVal.nan true = true ∧ isnone (FVal.num 5) true = false := by
  refine ⟨fun n => ?_, by decide, by decide⟩
  cases n <;> simp [isnone, FVal.isnan, FVal.feq]

/-- C2: for every numeric value n, isnone(n, false) returns true if and
only if n equals zero; in particular isnone(0.0, false) is true and
isnone(NaN, false) is false. -/
theorem isnone_zero_nan_false_iff :
    (forall n : FVal, isnone n false = true ↔ n = FVal.num 0)
    ∧ isnone (FVal.num 0) false = true ∧ isnone FVal.nan false = false := by
  refine ⟨fun n => ?_, by decide, by decide⟩
  cases n <;> simp [isnone, FVal.feq]

/-- C7: isnone is a pure, deterministic predicate: two calls with equal
value and equal zero_nan flag return equal results (in the embedding it
is a function of its arguments alone, so it touches no caller-visible
state). -/
theorem isnone_deterministic (n1 n2 : FVal) (z1 z2 : Bool)
    (hn : n1 = n2) (hz : z1 = z2) : isnone n1 z1 = isnone n2 z2 := by
  rw [hn, hz]

/-- Witness for C7 at a concrete input. -/
theorem isnone_deterministic_witness :
    isnone (FVal.num 5) true = isnone (FVal.num 5) true :=
  isnone_deterministic (FVal.num 5) (FVal.num 5) true true rfl rfl

/-- C8: calling isnone with the zero_nan argument omitted equals calling
it with zero_nan set to false; the default classification treats exactly
zero as none and never classifies NaN as none. -/
theorem isnone_default_false :
    (forall n : FVal, isnoneDefault n = isnone n false)
    ∧ (forall n : FVal, isnoneDefault n = true ↔ n = FVal.num 0)
    ∧ isnoneDefault FVal.nan = false := by
  refine ⟨fun n => rfl, fun n => ?_, by decide⟩
  cases n <;> simp [isnoneDefault, isnone, FVal.feq]

/-- C6: every call of what() on the library exception types returns the
same fixed description string naming the library of origin, and the
exception types carry no other state (any two instances are equal). -/
theorem exception_what_fixed :
    (forall e : spsparse.Exception, e.what = "spsparse::Exception()")
    ∧ (forall e : ibmisc.Exception, e.what = "ibmisc::Exception()")
    ∧ (forall e1 e2 : spsparse.Exception, e1 = e2)
    ∧ (forall e1 e2 : ibmisc.Exception, e1 = e2) := by
  refine ⟨fun _ => rfl, fun _ => rfl, fun e1 e2 => ?_, fun e1 e2 => ?_⟩
  · cases e1; cases e2; rfl
  · cases e1; cases e2; rfl

/-- C5: the rank-2 sort-order constants are ROW_MAJOR = [0, 1] and
COL_MAJOR = [1, 0], and each, read as a map from position to dimension,
is a bijection over the set of dimensions 0 and 1. -/
theorem sort_order_constants :
    ROW_MAJOR = [0, 1] ∧ COL_MAJOR = [1, 0]
    ∧ Function.Injective (permAt ROW_MAJOR)
    ∧ Function.Injective (permAt COL_MAJOR)
    ∧ (forall j : Fin 2, ∃ i : Fin 2, permAt ROW_MAJOR i = (j.val : Int))
    ∧ (forall j : Fin 2, ∃ i : Fin 2, permAt COL_MAJOR i = (j.val : Int)) := by
  refine ⟨rfl, rfl, ?_, ?_, ?_, ?_⟩ <;> decide

/-- C3: under REPLACE_THEN_ADD, merging an incoming value into a dense
destination replaces the existing value when it is none per the value
classifier with the given zero_nan flag, and adds to it otherwise. -/
theorem replace_then_add_dense (zero_nan : Bool) (e inc : FVal) :
    (isnone e zero_nan = true →
      denseMerge .REPLACE_THEN_ADD zero_nan e inc = inc)
    ∧ (isnone e zero_nan = false →
      denseMerge .REPLACE_THEN_ADD zero_nan e inc = FVal.add e inc) := by
  constructor <;> intro h <;> simp [denseMerge, h]

/-- Witness for C3 at concrete inputs: a NaN cell is replaced under
zero_nan, and a nonzero cell is added to. -/
theorem replace_then_add_dense_witness :
    denseMerge .REPLACE_THEN_ADD true FVal.nan (FVal.num 5) = FVal.num 5
    ∧ denseMerge .REPLACE_THEN_ADD false (FVal.num 2) (FVal.num 5) = FVal.num 7 := by
  constructor
  · exact (replace_then_add_dense true FVal.nan (FVal.num 5)).1 (by decide)
  · exact ((replace_then_add_dense false (FVal.num 2) (FVal.num 5)).2 (by decide)).trans
      (by decide)

end Claims

/-- Adding the number zero on the right is the identity on the embedded
values. -/
theorem fval_add_num_zero (v : FVal) : FVal.add v (FVal.num 0) = v := by
  cases v <;> simp [FVal.add]

/-- Associativity of the embedded addition. -/
theorem fval_add_assoc (a b c : FVal) :
    FVal.add (FVal.add a b) c = FVal.add a (FVal.add b c) := by
  cases a <;> cases b <;> cases c <;> simp [FVal.add, add_assoc]

/-- Folding the embedded addition over a list from an accumulator equals
adding the accumulator to the sum of the list. -/
theorem foldl_add_sumF :
    forall (rest : List FVal) (v : FVal),
      rest.foldl FVal.add v = FVal.add v (spsparse.sumF rest) := by
  intro rest
  induction rest with
  | nil => intro v; simp [spsparse.sumF, fval_add_num_zero]
  | cons r t ih =>
    intro v
    simp only [List.foldl_cons, spsparse.sumF]
    rw [ih (FVal.add v r), fval_add_assoc]

/-- getLastD of a list ending in w is w. -/
theorem getLastD_snoc :
    forall (l : List FVal) (v w : FVal), (l ++ [w]).getLastD v = w := by
  intro l
  induction l with
  | nil => intro v w; rfl
  | cons a t ih =>
    intro v w
    rw [List.cons_append, List.getLastD_cons]
    exact ih a w

/-- C4: when consolidate merges records sharing an identical coordinate
tuple, LEAVE_ALONE keeps the first-encountered value, ADD produces the
sum of all duplicate values, and REPLACE keeps the last-encountered
value; on two records at (1,1) with values 3.0 and 4.0 the three
policies yield 7.0, 3.0 and 4.0 respectively. -/
theorem consolidate_duplicate_policies :
    (forall (v : FVal) (rest : List FVal),
      spsparse.combineDup .LEAVE_ALONE v rest = v)
    ∧ (forall (v : FVal) (rest : List FVal),
      spsparse.combineDup .ADD v rest = spsparse.sumF (v :: rest))
    ∧ (forall (v w : FVal) (rest : List FVal),
      spsparse.combineDup .REPLACE v (rest ++ [w]) = w)
    ∧ spsparse.consolidate .ADD false false
        [([1, 1], FVal.num 3), ([1, 1], FVal.num 4)] = some [([1, 1], FVal.num 7)]
    ∧ spsparse.consolidate .LEAVE_ALONE false false
        [([1, 1], FVal.num 3), ([1, 1], FVal.num 4)] = some [([1, 1], FVal.num 3)]
    ∧ spsparse.consolidate .REPLACE false false
        [([1, 1], FVal.num 3), ([1, 1], FVal.num 4)] = some [([1, 1], FVal.num 4)] := by
  refine ⟨fun v rest => rfl, fun v rest => ?_, fun v w rest => ?_,
    by decide, by decide, by decide⟩
  · show rest.foldl FVal.add v = spsparse.sumF (v :: rest)
    rw [foldl_add_sumF]
    rfl
  · exact getLastD_snoc rest v w

/-- C9: stream with RANK equal to zero writes exactly a brace pair and
reads no element of the array, so an everywhere-unreadable (null) array
is acceptable at rank zero. -/
theorem stream_rank_zero_reads_nothing :
    (forall (a : Nat → Option String) (fuel : Nat),
      stream a 0 fuel = some "\x7b\x7d")
    ∧ stream (fun _ => none) 0 0 = some "\x7b\x7d" :=
  ⟨fun _ _ => rfl, rfl⟩

/-- A run of the for loop of stream from position k, when RANK exceeds k
by m + 1, every element up to position k + m is readable and the fuel
covers the m + 1 remaining iterations, produces the m + 1 elements from
position k joined by the separator. -/
theorem streamLoop_run (a : Nat → Option String) (v : Nat → String) :
    forall (m fuel k : Nat) (RANK : Int), RANK = ((k + m + 1 : Nat) : Int) →
      m + 1 ≤ fuel → (∀ j, j ≤ k + m → a j = some (v j)) →
      streamLoop a RANK fuel k
        = some (sepList ((List.range' k (m + 1)).map v)) := by
  intro m
  induction m with
  | zero =>
    intro fuel k RANK hR hf hread
    obtain ⟨f, rfl⟩ : ∃ f, fuel = f + 1 := ⟨fuel - 1, by omega⟩
    simp only [streamLoop, hread k (by omega)]
    rw [hR, if_pos rfl]
    simp [sepList, List.range']
  | succ m ih =>
    intro fuel k RANK hR hf hread
    obtain ⟨f, rfl⟩ : ∃ f, fuel = f + 1 := ⟨fuel - 1, by omega⟩
    simp only [streamLoop, hread k (by omega)]
    have hne : ¬(((k + 1 : Nat) : Int) = RANK) := by
      rw [hR]
      intro hc
      omega
    rw [if_neg hne]
    have hR2 : RANK = ((k + 1 + m + 1 : Nat) : Int) := by
      rw [hR]
      congr 1
      omega
    rw [ih f (k + 1) RANK hR2 (by omega) (fun j hj => hread j (by omega))]
    simp only [Option.map_some']
    congr 1

/-- A run of the for loop of stream with negative RANK never reaches the
exit condition: it fails for every fuel bound, modelling divergence. -/
theorem streamLoop_never (a : Nat → Option String) (RANK : Int) (hR : RANK < 0) :
    forall (fuel k : Nat), streamLoop a RANK fuel k = none := by
  intro fuel
  induction fuel with
  | zero => intro k; rfl
  | succ f ih =>
    intro k
    cases h : a k with
    | none => simp only [streamLoop, h]
    | some s =>
      have hne : ¬(((k + 1 : Nat) : Int) = RANK) := by
        intro hc
        omega
      simp only [streamLoop, h]
      rw [if_neg hne, ih (k + 1)]
      rfl

/-- C10: for every RANK at least 1 and array with RANK readable
elements, stream terminates and writes exactly an opening brace, the
elements at indices 0 through RANK - 1 in order separated by a comma and
a space, and a closing brace; and for negative RANK the loop never
reaches its exit condition (it fails under every fuel bound), so the
precondition RANK nonnegative is required. -/
theorem stream_positive_rank :
    (forall (a : Nat → Option String) (v : Nat → String) (RANK : Nat),
      1 ≤ RANK → (∀ k, k < RANK → a k = some (v k)) →
      forall fuel : Nat, RANK ≤ fuel →
      stream a (RANK : Int) fuel
        = some ("\x7b" ++ sepList ((List.range RANK).map v) ++ "\x7d"))
    ∧ (forall (a : Nat → Option String) (RANK : Int), RANK < 0 →
      forall (fuel k : Nat), streamLoop a RANK fuel k = none) := by
  constructor
  · intro a v RANK hR hread fuel hfuel
    have h0 : ¬(((RANK : Nat) : Int) = 0) := by
      intro hc
      omega
    rw [stream, if_neg h0]
    rw [streamLoop_run a v (RANK - 1) fuel 0 (RANK : Int)
      (by congr 1; omega) (by omega) (fun j hj => hread j (by omega))]
    simp only [Option.map_some']
    congr 2
    rw [show RANK - 1 + 1 = RANK by omega, List.range_eq_range']
  · intro a RANK hR fuel k
    exact streamLoop_never a RANK hR fuel k

/-- Witness for C10 at concrete inputs: printing a rank-3 array of the
numerals 0, 1, 2, and a run of the loop with RANK equal to -1 failing
under the fuel bound 5. -/
theorem stream_positive_rank_witness :
    stream (fun k => some (toString k)) ((3 : Nat) : Int) 3
      = some "\x7b0, 1, 2\x7d"
    ∧ streamLoop (fun _ => some "x") (-1) 5 0 = none := by
  constructor
  · exact (stream_positive_rank.1 (fun k => some (toString k))
      (fun k => toString k) 3 (by omega) (fun k hk => rfl) 3 (by omega)).trans
      (by decide)
  · exact stream_positive_rank.2 (fun _ => some "x") (-1) (by omega) 5 0
